import Mathlib

/-!
Verification development for the `ai-powred-todo-app` repository.

Part A embeds `src/gcal_mcp_client.py`: the tool-descriptor adapter
`_convert_mcp_tools_to_groq`, the result flattener `_flatten_tool_result`,
and the conversation loop inside `run_client` (the per-user-turn
`for _ in range(5)` loop and the outer `while True` input loop), together
with a model of Python's `json.loads` restricted to the JSON fragment the
client exercises (null, booleans, integers, strings with simple escapes,
arrays, objects; fractional numbers and `\u` escapes are outside the model).

Part B embeds `src/main.py`: the in-memory task/subtask store and the
three mutating endpoints `create_task`, `add_subtask`, `update_subtask`.
-/

/-- JSON values, as returned by Python's `json.loads`. Numbers are modelled
as integers only (the client never relies on fractional arguments). -/
inductive Json where
  | null
  | bool (b : Bool)
  | num (n : Int)
  | str (s : String)
  | arr (xs : List Json)
  | obj (kvs : List (String × Json))

/-- The opening brace character, kept out of literals. -/
def lbrace : Char := '\x7b'

/-- The closing brace character, kept out of literals. -/
def rbrace : Char := '\x7d'

/-- JSON whitespace accepted between tokens by `json.loads`. -/
def isJsonWs (c : Char) : Bool :=
  c = ' ' || c = '\t' || c = '\n' || c = '\r'

/-- Drop leading JSON whitespace. -/
def skipWs : List Char → List Char
  | c :: cs => if isJsonWs c then skipWs cs else c :: cs
  | [] => []

/-- Parse the body of a JSON string after the opening quote, returning the
decoded characters and the rest of the input.  Escapes cover the common
single-character forms; `\u` escapes are outside the model.  Fuel-indexed;
callers pass the input length plus one. -/
def parseStrBody : Nat → List Char → Option (List Char × List Char)
  | 0, _ => none
  | _, [] => none
  | fuel + 1, c :: cs =>
    if c = '"' then some ([], cs)
    else if c = '\\' then
      match cs with
      | [] => none
      | e :: cs2 =>
        let dec : Option Char :=
          if e = '"' then some '"'
          else if e = '\\' then some '\\'
          else if e = '/' then some '/'
          else if e = 'n' then some '\n'
          else if e = 't' then some '\t'
          else if e = 'r' then some '\r'
          else if e = 'b' then some (Char.ofNat 8)
          else if e = 'f' then some (Char.ofNat 12)
          else none
        match dec with
        | some d => (parseStrBody fuel cs2).map fun (s, r) => (d :: s, r)
        | none => none
    else (parseStrBody fuel cs).map fun (s, r) => (c :: s, r)

/-- Parse the body of a JSON string after the opening quote. -/
def parseStrRest (cs : List Char) : Option (List Char × List Char) :=
  parseStrBody (cs.length + 1) cs

/-- Take a maximal run of decimal digits. -/
def takeDigits : List Char → List Char × List Char
  | [] => ([], [])
  | c :: cs =>
    if c.isDigit then
      let (d, r) := takeDigits cs
      (c :: d, r)
    else ([], c :: cs)

/-- Decimal value of a digit run. -/
def digitsToNat (ds : List Char) : Nat :=
  ds.foldl (fun a c => a * 10 + (c.toNat - 48)) 0

mutual

/-- Recursive-descent parser for one JSON value (fuel-indexed). -/
def parseValue : Nat → List Char → Option (Json × List Char)
  | 0, _ => none
  | fuel + 1, cs =>
    match skipWs cs with
    | [] => none
    | c :: rest =>
      if c = 'n' then
        match rest with
        | 'u' :: 'l' :: 'l' :: r => some (.null, r)
        | _ => none
      else if c = 't' then
        match rest with
        | 'r' :: 'u' :: 'e' :: r => some (.bool true, r)
        | _ => none
      else if c = 'f' then
        match rest with
        | 'a' :: 'l' :: 's' :: 'e' :: r => some (.bool false, r)
        | _ => none
      else if c = '"' then
        (parseStrRest rest).map fun (s, r) => (.str (String.mk s), r)
      else if c = '[' then
        match skipWs rest with
        | ']' :: r => some (.arr [], r)
        | other => (parseItems fuel other).map fun (vs, r) => (.arr vs, r)
      else if c = lbrace then
        match skipWs rest with
        | c2 :: r2 =>
          if c2 = rbrace then some (.obj [], r2)
          else (parseMembers fuel (c2 :: r2)).map fun (kvs, r) => (.obj kvs, r)
        | [] => none
      else if c = '-' then
        match takeDigits rest with
        | ([], _) => none
        | (ds, r) => some (.num (-(digitsToNat ds : Int)), r)
      else if c.isDigit then
        let (ds, r) := takeDigits (c :: rest)
        match r with
        | [] => some (.num (digitsToNat ds : Int), [])
        | p :: _ =>
          if p = '.' || p = 'e' || p = 'E' then none
          else some (.num (digitsToNat ds : Int), r)
      else none

/-- Comma-separated JSON array items up to the closing bracket. -/
def parseItems : Nat → List Char → Option (List Json × List Char)
  | 0, _ => none
  | fuel + 1, cs =>
    match parseValue fuel cs with
    | none => none
    | some (v, r) =>
      match skipWs r with
      | ',' :: r2 => (parseItems fuel r2).map fun (vs, r3) => (v :: vs, r3)
      | ']' :: r2 => some ([v], r2)
      | _ => none

/-- Comma-separated JSON object members up to the closing brace. -/
def parseMembers : Nat → List Char → Option (List (String × Json) × List Char)
  | 0, _ => none
  | fuel + 1, cs =>
    match skipWs cs with
    | '"' :: r =>
      match parseStrRest r with
      | none => none
      | some (k, r1) =>
        match skipWs r1 with
        | ':' :: r2 =>
          match parseValue fuel r2 with
          | none => none
          | some (v, r3) =>
            match skipWs r3 with
            | [] => none
            | c :: r4 =>
              if c = ',' then
                (parseMembers fuel r4).map fun (kvs, r5) => ((String.mk k, v) :: kvs, r5)
              else if c = rbrace then some ([(String.mk k, v)], r4)
              else none
        | _ => none
    | _ => none

end

/-- Model of Python's `json.loads`: parse one value and require only
whitespace to remain; `none` models a raised `json.JSONDecodeError`. -/
def json_loads (s : String) : Option Json :=
  match parseValue (s.data.length + 1) s.data with
  | some (v, r) => if skipWs r = [] then some v else none
  | none => none

/-- Whether a JSON value is an object (a Python mapping). -/
def Json.isObj : Json → Bool
  | .obj _ => true
  | _ => false

/-- Python truthiness of a decoded JSON value (`None`, `False`, `0`, `""`,
`[]` and the empty mapping are falsy). -/
def jsonTruthy : Json → Bool
  | .null => false
  | .bool b => b
  | .num n => n != 0
  | .str s => s != ""
  | .arr xs => !xs.isEmpty
  | .obj kvs => !kvs.isEmpty

/-- A content block of an MCP `CallToolResult`.  `text` covers both the
typed block with `type == "text"` and the dict-style block with
`"type": "text"` (the flattener treats the two identically, contributing
the block's text); `other` is any other block, contributing `str(block)`. -/
inductive Block where
  | text (t : String)
  | other (s : String)

/-- Model of an MCP `CallToolResult`: its content blocks (`None` content is
already collapsed to `[]`, as `getattr(result, "content", None) or []`
does), the string rendering `str(result)` of the whole result, and the MCP
error flag `isError` (which the client never inspects). -/
structure ToolResult where
  content : List Block
  render : String
  isError : Bool

/-- `_flatten_tool_result`: turn a `CallToolResult` into a plain string. -/
def _flatten_tool_result (result : ToolResult) : String :=
  let parts := result.content.map fun b =>
    match b with
    | .text t => t
    | .other s => s
  if parts.isEmpty then result.render
  else String.intercalate "\n" (parts.filter fun p => p != "")

/-- An MCP tool descriptor as the client reads it: `name`, the possibly
absent `description`, and the possibly absent `inputSchema` /
`input_schema` attributes (`none` models both a missing attribute and an
attribute holding `None`). -/
structure MCPTool where
  name : String
  description : Option String
  inputSchema : Option Json
  input_schema : Option Json

/-- Python `x or y` on an optional string (`None` and `""` are falsy). -/
def pyOrString (a : Option String) (b : String) : String :=
  match a with
  | some s => if s = "" then b else s
  | none => b

/-- Python `x or y` on an optional JSON value (`None` and falsy JSON values
fall through to the default). -/
def pyOrJson (a : Option Json) (b : Json) : Json :=
  match a with
  | some v => if jsonTruthy v then v else b
  | none => b

/-- The `function` member of a Groq tool entry. -/
structure GroqFn where
  name : String
  description : String
  parameters : Json

/-- One entry of the Groq/OpenAI tool list built by the adapter. -/
structure GroqTool where
  type : String
  function : GroqFn

/-- The per-descriptor body of `_convert_mcp_tools_to_groq`. -/
def convertOneTool (t : MCPTool) : GroqTool :=
  let params := pyOrJson t.inputSchema
    (pyOrJson t.input_schema (Json.obj [("type", Json.str "object")]))
  ⟨"function", ⟨t.name, pyOrString t.description "No description", params⟩⟩

/-- `_convert_mcp_tools_to_groq`: MCP → Groq/OpenAI tool schema adapter. -/
def _convert_mcp_tools_to_groq (tools : List MCPTool) : List GroqTool :=
  tools.map convertOneTool

/-- One tool call carried by an assistant completion (`tc.id`,
`tc.function.name`, `tc.function.arguments`; the arguments are the raw
string the model emitted, with `""` also standing for an absent value). -/
structure ToolCall where
  id : String
  name : String
  arguments : String

/-- A transcript message, as appended to the client's `messages` list. -/
inductive Msg where
  | system (content : String)
  | user (content : String)
  | assistant (content : String) (tool_calls : List ToolCall)
  | tool (tool_call_id : String) (name : String) (content : String)

/-- One chat completion: the assistant content (possibly `None`) and its
tool calls (`[]` models both `None` and an empty list, which Python's
`if tool_calls:` treats alike). -/
structure ModelResp where
  content : Option String
  tool_calls : List ToolCall

/-- Python whitespace stripped by `str.strip()` (ASCII fragment). -/
def pyWsChar (c : Char) : Bool :=
  c = ' ' || c = '\t' || c = '\n' || c = '\r' || c = '\x0b' || c = '\x0c'

/-- Python `str.strip()`. -/
def pyStrip (s : String) : String :=
  String.mk (((s.data.dropWhile pyWsChar).reverse.dropWhile pyWsChar).reverse)

/-- Python `str.lower()` (ASCII fragment). -/
def pyLower (s : String) : String :=
  String.mk (s.data.map Char.toLower)

/-- Argument parsing for one tool call:
`json.loads(tc.function.arguments or "{}")`, with the
`except json.JSONDecodeError` branch substituting the raw-text fallback
mapping under the reserved `_raw` key. -/
def parseToolArgs (a : String) : Json :=
  match json_loads (if a = "" then String.mk [lbrace, rbrace] else a) with
  | some v => v
  | none => Json.obj [("_raw", Json.str a)]

/-- The `tool`-role message appended for one tool call: its correlation id,
tool name, and the flattened result of dispatching the call. -/
def toolMsgFor (callTool : String → Json → ToolResult) (tc : ToolCall) : Msg :=
  Msg.tool tc.id tc.name (_flatten_tool_result (callTool tc.name (parseToolArgs tc.arguments)))

/-- Result of one user turn: the transcript after the turn, the final
answer printed (if the model stopped requesting tools before the cap), and
the number of chat-completion calls made. -/
structure TurnOut where
  transcript : List Msg
  printed : Option String
  calls : Nat

/-- The per-user-turn loop of `run_client` (`for _ in range(5)`), with the
chat-completion API abstracted as a function `model` of the transcript and
tool dispatch abstracted as `callTool`.  When the model requests tools, the
assistant message is appended verbatim, one `tool` message is appended per
call in order, and the loop continues; otherwise the assistant's stripped
content is printed (and not appended) and the loop breaks. -/
def runTurn (model : List Msg → ModelResp) (callTool : String → Json → ToolResult) :
    Nat → List Msg → TurnOut
  | 0, ms => ⟨ms, none, 0⟩
  | fuel + 1, ms =>
    let resp := model ms
    if resp.tool_calls.isEmpty then
      ⟨ms, some (pyStrip (resp.content.getD "")), 1⟩
    else
      let amsg := Msg.assistant (resp.content.getD "") resp.tool_calls
      let tmsgs := resp.tool_calls.map (toolMsgFor callTool)
      let r := runTurn model callTool fuel (ms ++ amsg :: tmsgs)
      ⟨r.transcript, r.printed, r.calls + 1⟩

/-- The system prompt seeded into the transcript at session start. -/
def systemPrompt : String :=
  "You are a calendar assistant. You can create, list, and cancel Google Calendar events " ++
  "using the provided tools. Prefer ISO 8601 for times; default timezone is Asia/Colombo. " ++
  "Ask for any missing required fields before creating or canceling events."

/-- The transcript at session start: one seeded system message. -/
def initialMessages : List Msg := [Msg.system systemPrompt]

/-- The outer `while True` input loop of `run_client`: read a line, strip
it, break on `quit`/`exit` (case-insensitive), otherwise append the user
message and run one turn.  Inputs are modelled as a finite list of lines
(exhausting them ends the session, standing for end of input).  Returns the
final transcript and the printed final answers in order. -/
def runSession (model : List Msg → ModelResp) (callTool : String → Json → ToolResult) :
    List String → List Msg → List Msg × List String
  | [], ms => (ms, [])
  | line :: rest, ms =>
    let user := pyStrip line
    if pyLower user = "quit" || pyLower user = "exit" then (ms, [])
    else
      let r := runTurn model callTool 5 (ms ++ [Msg.user user])
      let (ms2, outs) := runSession model callTool rest r.transcript
      (ms2, r.printed.toList ++ outs)

/-- A fatal session-start failure: the tool peer cannot be reached or
returns a malformed schema (`stdio_client` / `initialize` / `list_tools`
failing before the loop begins). -/
structure DiscoveryError where
  msg : String

/-- `run_client`: discover tools (failing fatally on `DiscoveryError`),
then run the interactive session over the given input lines starting from
the seeded transcript. -/
def run_client (discover : Except DiscoveryError (List MCPTool))
    (model : List Msg → ModelResp) (callTool : String → Json → ToolResult)
    (inputs : List String) : Except DiscoveryError (List Msg × List String) :=
  match discover with
  | .error e => .error e
  | .ok _ => .ok (runSession model callTool inputs initialMessages)

/-- The usage line printed by the `__main__` block. -/
def usageMsg : String := "Usage: python groq_mcp_client.py <path\\to\\gcal_mcp_server.py>"

/-- Outcome of the `__main__` block: the process exit code and the usage
line, if printed. -/
structure MainOut where
  exitCode : Nat
  usage : Option String

/-- The `__main__` block: with no positional argument, print usage and exit
with code 1; otherwise run the client (an uncaught `DiscoveryError`
terminates the interpreter with a nonzero code, normal return exits 0). -/
def mainEntry (argv : List String) (discover : Except DiscoveryError (List MCPTool))
    (model : List Msg → ModelResp) (callTool : String → Json → ToolResult)
    (inputs : List String) : MainOut :=
  if argv.length < 2 then ⟨1, some usageMsg⟩
  else
    match run_client discover model callTool inputs with
    | .ok _ => ⟨0, none⟩
    | .error _ => ⟨1, none⟩

/-- A stored subtask (`Subtask` pydantic model). -/
structure Subtask where
  id : Nat
  title : String
  allocated_time : Nat
  done : Bool

/-- A stored task (the `Task` pydantic model; named `TodoTask` to avoid the core `Task` type). -/
structure TodoTask where
  id : Nat
  title : String
  description : Option String
  done : Bool
  subtasks : List Subtask

/-- The body of a subtask-creation request (`SubtaskCreate`). -/
structure SubtaskCreate where
  title : String
  allocated_time : Nat
  done : Bool

/-- The body of a task-creation request (`TaskCreate`). -/
structure TaskCreate where
  title : String
  description : Option String
  subtasks : List SubtaskCreate

/-- The body of a subtask-update request (`SubtaskUpdate`): both fields
optional. -/
structure SubtaskUpdate where
  title : Option String
  done : Option Bool

/-- An `HTTPException` raised by a handler. -/
structure HTTPError where
  status_code : Nat
  detail : String

/-- The service state: the `TASKS` dict (as an insertion-ordered
association list) and the two global id sequences. -/
structure Store where
  tasks : List (Nat × TodoTask)
  task_id_seq : Nat
  subtask_id_seq : Nat

/-- `TASKS.get(k)` on the association-list model of the dict. -/
def dictGet : List (Nat × TodoTask) → Nat → Option TodoTask
  | [], _ => none
  | kv :: d, k => if kv.1 = k then some kv.2 else dictGet d k

/-- `TASKS[k] = v` on the association-list model of the dict: replace the
existing binding in place, otherwise append. -/
def dictSet : List (Nat × TodoTask) → Nat → TodoTask → List (Nat × TodoTask)
  | [], k, v => [(k, v)]
  | kv :: d, k, v => if kv.1 = k then (k, v) :: d else kv :: dictSet d k v

/-- `len(subs) > 0 and all(s.done for s in subs)`. -/
def computeAllDone (subs : List Subtask) : Bool :=
  decide (subs.length > 0) && subs.all fun s => s.done

/-- Allocate ids for nested subtasks in order, threading the global
subtask id sequence. -/
def allocSubtasks (seq : Nat) : List SubtaskCreate → List Subtask × Nat
  | [] => ([], seq)
  | c :: cs =>
    let (rest, seq2) := allocSubtasks (seq + 1) cs
    (⟨seq + 1, c.title, c.allocated_time, c.done⟩ :: rest, seq2)

/-- `POST /tasks` (`create_task`): allocate a task id, build the nested
subtasks with fresh ids, compute `done`, and store the task. -/
def create_task (payload : TaskCreate) (st : Store) : TodoTask × Store :=
  let task_id := st.task_id_seq + 1
  let (subs, sseq) := allocSubtasks st.subtask_id_seq payload.subtasks
  let all_done := computeAllDone subs
  let task : TodoTask := ⟨task_id, payload.title, payload.description, all_done, subs⟩
  (task, ⟨dictSet st.tasks task_id task, task_id, sseq⟩)

/-- `GET /tasks` (`list_tasks`). -/
def list_tasks (st : Store) : List TodoTask :=
  st.tasks.map fun kv => kv.2

/-- `POST /tasks/\x7btask_id\x7d/subtasks` (`add_subtask`): 404 when the
task is missing, otherwise append a fresh subtask and recompute `done`. -/
def add_subtask (task_id : Nat) (payload : SubtaskCreate) (st : Store) :
    Except HTTPError TodoTask × Store :=
  match dictGet st.tasks task_id with
  | none => (.error ⟨404, "Task not found"⟩, st)
  | some task =>
    let sid := st.subtask_id_seq + 1
    let sub : Subtask := ⟨sid, payload.title, payload.allocated_time, payload.done⟩
    let subs := task.subtasks ++ [sub]
    let task2 : TodoTask := { task with subtasks := subs, done := computeAllDone subs }
    (.ok task2, ⟨dictSet st.tasks task_id task2, st.task_id_seq, sid⟩)

/-- Apply a `SubtaskUpdate` to one subtask (only the provided fields). -/
def applySubtaskUpdate (p : SubtaskUpdate) (s : Subtask) : Subtask :=
  { s with title := p.title.getD s.title, done := p.done.getD s.done }

/-- Update the first subtask with the given id, as the in-place mutation of
the object yielded by `next(s for s in task.subtasks if s.id == subtask_id)`
does. -/
def updateFirstSubtask (p : SubtaskUpdate) (sid : Nat) : List Subtask → List Subtask
  | [] => []
  | s :: rest =>
    if s.id = sid then applySubtaskUpdate p s :: rest
    else s :: updateFirstSubtask p sid rest

/-- `PATCH /tasks/\x7btask_id\x7d/subtasks/\x7bsubtask_id\x7d`
(`update_subtask`): 404 when the task or the subtask is missing, otherwise
apply the provided fields and recompute `done`. -/
def update_subtask (task_id subtask_id : Nat) (payload : SubtaskUpdate) (st : Store) :
    Except HTTPError TodoTask × Store :=
  match dictGet st.tasks task_id with
  | none => (.error ⟨404, "Task not found"⟩, st)
  | some task =>
    match task.subtasks.find? fun s => s.id = subtask_id with
    | none => (.error ⟨404, "Subtask not found"⟩, st)
    | some _ =>
      let subs := updateFirstSubtask payload subtask_id task.subtasks
      let task2 : TodoTask := { task with subtasks := subs, done := computeAllDone subs }
      (.ok task2, ⟨dictSet st.tasks task_id task2, st.task_id_seq, st.subtask_id_seq⟩)

/-- The string a single content block contributes to the flattened output:
its text for a textual block, its rendering for any other block. -/
def blockPart : Block → String
  | .text t => t
  | .other s => s

/-- Spec-side flattening, stated from the amended wording: join the
contributions of all blocks with newlines, dropping empty contributions;
fall back to the whole payload's rendering only when there are no blocks
at all. -/
def flatten_spec (r : ToolResult) : String :=
  match r.content with
  | [] => r.render
  | _ => String.intercalate "\n" ((r.content.map blockPart).filter fun p => p != "")

/-- Well-formed sequence of tool-call rounds appended to a transcript:
each round is an assistant message carrying a nonempty list of tool calls,
followed by exactly one `tool` message per call, in the model's order, each
carrying that call's id and name (with some content `out tc`). -/
inductive RoundsWF : List Msg → Prop where
  | nil : RoundsWF []
  | round (a : String) (tcs : List ToolCall) (out : ToolCall → String) (rest : List Msg)
      (hne : tcs ≠ []) (hrest : RoundsWF rest) :
      RoundsWF (Msg.assistant a tcs ::
        (tcs.map (fun tc => Msg.tool tc.id tc.name (out tc)) ++ rest))

/-- The task-completion invariant: a task is done exactly when it has at
least one subtask and every subtask is done. -/
def doneInv (t : TodoTask) : Prop :=
  t.done = true ↔ (t.subtasks ≠ [] ∧ ∀ s ∈ t.subtasks, s.done = true)

/-- A scripted model for the two-call turn: on the first call of the turn
(the transcript still holds only the system and user messages) request tool
`X` with arguments `\x7b"a": 1\x7d`; on the next call answer `done` with no
tool calls. -/
def scriptedModel (t : List Msg) : ModelResp :=
  if t.length ≤ 2 then ⟨some "", [⟨"call_1", "X", "\x7b\"a\": 1\x7d"⟩]⟩
  else ⟨some "done", []⟩

/-- A tool peer whose every call succeeds with one textual block `ok`. -/
def okTool (_ : String) (_ : Json) : ToolResult := ⟨[.text "ok"], "res", false⟩

/-- A tool peer whose every call reports a fault: an error-flagged result
whose single textual block carries the error text. -/
def errTool (_ : String) (_ : Json) : ToolResult :=
  ⟨[.text "Error: boom"], "err", true⟩

/-- A model that requests tool `X` on every call (never a final answer). -/
def loopingModel (_ : List Msg) : ModelResp :=
  ⟨some "", [⟨"id1", "X", String.mk [lbrace, rbrace]⟩]⟩

/-- A descriptor with no description and no schema under either attribute
name. -/
def bareTool : MCPTool := ⟨"X", none, none, none⟩

/-- The empty service state. -/
def store0 : Store := ⟨[], 0, 0⟩

/-- A task-creation payload with one already-done subtask. -/
def payload0 : TaskCreate := ⟨"t", none, [⟨"s1", 5, true⟩]⟩

/-- A subtask-creation payload. -/
def sc0 : SubtaskCreate := ⟨"s2", 3, false⟩

/-- A subtask-update payload marking the subtask done. -/
def upd0 : SubtaskUpdate := ⟨none, some true⟩

/-- The state after creating `payload0` in the empty store. -/
def store1 : Store := (create_task payload0 store0).2

/-- The task stored by `create_task payload0 store0`. -/
def task1 : TodoTask := ⟨1, "t", none, true, [⟨1, "s1", 5, true⟩]⟩

/-- The task returned by `add_subtask 1 sc0 store1`. -/
def taskA : TodoTask := ⟨1, "t", none, false, [⟨1, "s1", 5, true⟩, ⟨2, "s2", 3, false⟩]⟩

/-- The state after `add_subtask 1 sc0 store1`. -/
def storeA : Store := ⟨[(1, taskA)], 1, 2⟩

/-- The task returned by `update_subtask 1 2 upd0 storeA`. -/
def taskB : TodoTask := ⟨1, "t", none, true, [⟨1, "s1", 5, true⟩, ⟨2, "s2", 3, true⟩]⟩

/-- The state after `update_subtask 1 2 upd0 storeA`. -/
def storeB : Store := ⟨[(1, taskB)], 1, 2⟩

theorem dictGet_dictSet (d : List (Nat × TodoTask)) (k : Nat) (v : TodoTask) :
    dictGet (dictSet d k v) k = some v := by
  induction d with
  | nil => simp [dictGet, dictSet]
  | cons kv d ih =>
    by_cases hk : kv.1 = k
    · simp [dictGet, dictSet, hk]
    · simp [dictGet, dictSet, hk, ih]

theorem computeAllDone_iff (subs : List Subtask) :
    computeAllDone subs = true ↔ (subs ≠ [] ∧ ∀ s ∈ subs, s.done = true) := by
  simp [computeAllDone, List.all_eq_true, List.length_pos]

theorem doneInv_of_compute (t : TodoTask) (h : t.done = computeAllDone t.subtasks) :
    doneInv t := by
  unfold doneInv
  rw [h]
  exact computeAllDone_iff t.subtasks

/-- C4 counterexample: the claim's fallback and non-emptiness clauses fail
on the code.  A payload with one non-textual block flattens to that block's
own rendering, not to the structural rendering of the whole payload; and a
payload whose only textual block has empty text flattens to the empty
string. -/
theorem flatten_fallback_counterexample :
    _flatten_tool_result ⟨[Block.other "x"], "R", false⟩ = "x" ∧ "x" ≠ "R" ∧
    _flatten_tool_result ⟨[Block.text ""], "R", false⟩ = "" := by
  refine ⟨rfl, ?_, rfl⟩
  decide

/-- C4 (amended): flattening joins the contributions of all content blocks
with newline separators — a textual block contributes its text, any other
block its string rendering — dropping empty contributions; the structural
rendering of the whole payload is used only when there are no blocks at
all, so the result can be empty when every block contributes empty text. -/
theorem flatten_eq_spec (r : ToolResult) : _flatten_tool_result r = flatten_spec r := by
  unfold _flatten_tool_result flatten_spec blockPart
  cases h : r.content with
  | nil => simp
  | cons b bs => simp

/-- C3 counterexample: an arguments string that is valid JSON but not an
object is passed to `invoke` unchanged, so `invoke` does not always receive
a mapping: `"3"` parses to the number 3. -/
theorem parseToolArgs_scalar_counterexample :
    parseToolArgs "3" = Json.num 3 ∧ (parseToolArgs "3").isObj = false :=
  ⟨rfl, rfl⟩

/-- C3 (amended): argument parsing never raises; when the arguments string
(`"\x7b\x7d"` substituted for an empty one) fails JSON parsing, the
arguments are replaced by the single-field mapping `\x7b"_raw": raw\x7d`,
so `invoke` receives a mapping whenever parsing fails — but when the string
parses to a non-object JSON value, that value is passed to `invoke` as-is. -/
theorem parseToolArgs_fallback (a : String) :
    (json_loads (if a = "" then String.mk [lbrace, rbrace] else a) = none →
      parseToolArgs a = Json.obj [("_raw", Json.str a)] ∧ (parseToolArgs a).isObj = true) ∧
    (∀ v, json_loads (if a = "" then String.mk [lbrace, rbrace] else a) = some v →
      parseToolArgs a = v) := by
  unfold parseToolArgs
  constructor
  · intro h
    rw [h]
    exact ⟨rfl, rfl⟩
  · intro v h
    rw [h]

theorem parseToolArgs_fallback_witness :
    parseToolArgs "\x7bbad" = Json.obj [("_raw", Json.str "\x7bbad")] ∧
    (parseToolArgs "\x7bbad").isObj = true :=
  (parseToolArgs_fallback "\x7bbad").1 rfl

/-- C7 (confirmed): the descriptor conversion is a pure total function
producing one entry per descriptor via `convertOneTool`; each entry is a
`function`-typed entry with the descriptor's name, a missing description
defaults to the placeholder `"No description"`, and a schema missing under
both attribute names defaults to the `\x7b"type": "object"\x7d` schema. -/
theorem convert_tools_properties (tools : List MCPTool) :
    _convert_mcp_tools_to_groq tools = tools.map convertOneTool ∧
    ∀ t : MCPTool,
      (convertOneTool t).type = "function" ∧
      (convertOneTool t).function.name = t.name ∧
      (t.description = none → (convertOneTool t).function.description = "No description") ∧
      (t.inputSchema = none → t.input_schema = none →
        (convertOneTool t).function.parameters = Json.obj [("type", Json.str "object")]) := by
  refine ⟨rfl, fun t => ⟨rfl, rfl, fun hd => ?_, fun h1 h2 => ?_⟩⟩
  · simp [convertOneTool, pyOrString, hd]
  · simp [convertOneTool, pyOrJson, h1, h2]

theorem convert_tools_properties_witness :
    (convertOneTool bareTool).type = "function" ∧
    (convertOneTool bareTool).function.name = "X" ∧
    (convertOneTool bareTool).function.description = "No description" ∧
    (convertOneTool bareTool).function.parameters = Json.obj [("type", Json.str "object")] := by
  obtain ⟨-, h⟩ := convert_tools_properties [bareTool]
  obtain ⟨h1, h2, h3, h4⟩ := h bareTool
  exact ⟨h1, h2, h3 rfl, h4 rfl rfl⟩

/-- C9 (confirmed): after each of the three mutating operations the
returned task satisfies the completion invariant — `done` is true exactly
when the task has at least one subtask and all of them are done (so a task
with no subtasks is never done) — and the store holds that same task under
its id. -/
theorem mutators_done_invariant :
    (∀ p st, doneInv (create_task p st).1 ∧
      dictGet (create_task p st).2.tasks (create_task p st).1.id = some (create_task p st).1) ∧
    (∀ tid p st t st2, add_subtask tid p st = (.ok t, st2) →
      doneInv t ∧ dictGet st2.tasks tid = some t) ∧
    (∀ tid sid p st t st2, update_subtask tid sid p st = (.ok t, st2) →
      doneInv t ∧ dictGet st2.tasks tid = some t) := by
  refine ⟨fun p st => ⟨doneInv_of_compute _ rfl, dictGet_dictSet _ _ _⟩,
    fun tid p st t st2 h => ?_, fun tid sid p st t st2 h => ?_⟩
  · cases hd : dictGet st.tasks tid with
    | none => simp [add_subtask, hd, Prod.ext_iff] at h
    | some task =>
      simp only [add_subtask, hd] at h
      obtain ⟨h1, h2⟩ := Prod.mk.injEq .. ▸ h
      cases h1
      cases h2
      exact ⟨doneInv_of_compute _ rfl, dictGet_dictSet _ _ _⟩
  · cases hd : dictGet st.tasks tid with
    | none => simp [update_subtask, hd, Prod.ext_iff] at h
    | some task =>
      cases hf : task.subtasks.find? fun s => s.id = sid with
      | none => simp [update_subtask, hd, hf, Prod.ext_iff] at h
      | some s0 =>
        simp only [update_subtask, hd, hf] at h
        obtain ⟨h1, h2⟩ := Prod.mk.injEq .. ▸ h
        cases h1
        cases h2
        exact ⟨doneInv_of_compute _ rfl, dictGet_dictSet _ _ _⟩

theorem mutators_done_invariant_witness :
    doneInv (create_task payload0 store0).1 ∧
    (doneInv taskA ∧ dictGet storeA.tasks 1 = some taskA) ∧
    (doneInv taskB ∧ dictGet storeB.tasks 1 = some taskB) :=
  ⟨(mutators_done_invariant.1 payload0 store0).1,
   mutators_done_invariant.2.1 1 sc0 store1 taskA storeA rfl,
   mutators_done_invariant.2.2 1 2 upd0 storeA taskB storeB rfl⟩

/-- C10 (confirmed): `add_subtask` and `update_subtask` answer HTTP 404
when the task id is absent, and `update_subtask` answers 404 when the task
exists but holds no subtask with the given id; in each case the whole
service state — the task store, every task in it, and both id sequences —
is returned unchanged. -/
theorem notfound_404_leaves_store :
    (∀ tid p st, dictGet st.tasks tid = none →
      add_subtask tid p st = (.error ⟨404, "Task not found"⟩, st)) ∧
    (∀ tid sid p st, dictGet st.tasks tid = none →
      update_subtask tid sid p st = (.error ⟨404, "Task not found"⟩, st)) ∧
    (∀ tid sid p st task, dictGet st.tasks tid = some task →
      (task.subtasks.find? fun s => s.id = sid) = none →
      update_subtask tid sid p st = (.error ⟨404, "Subtask not found"⟩, st)) := by
  refine ⟨fun tid p st h => ?_, fun tid sid p st h => ?_,
    fun tid sid p st task h hf => ?_⟩
  · simp [add_subtask, h]
  · simp [update_subtask, h]
  · simp [update_subtask, h, hf]

theorem notfound_404_leaves_store_witness :
    add_subtask 7 sc0 store0 = (.error ⟨404, "Task not found"⟩, store0) ∧
    update_subtask 7 1 upd0 store0 = (.error ⟨404, "Task not found"⟩, store0) ∧
    update_subtask 1 99 upd0 store1 = (.error ⟨404, "Subtask not found"⟩, store1) :=
  ⟨notfound_404_leaves_store.1 7 sc0 store0 rfl,
   notfound_404_leaves_store.2.1 7 1 upd0 store0 rfl,
   notfound_404_leaves_store.2.2 1 99 upd0 store1 task1 rfl rfl⟩

theorem runTurn_calls_le (model : List Msg → ModelResp) (ct : String → Json → ToolResult) :
    ∀ fuel ms, (runTurn model ct fuel ms).calls ≤ fuel := by
  intro fuel
  induction fuel with
  | zero => intro ms; simp [runTurn]
  | succ n ih =>
    intro ms
    by_cases h : (model ms).tool_calls.isEmpty = true
    · simp [runTurn, h]
    · rw [Bool.not_eq_true] at h
      have h2 := ih (ms ++ Msg.assistant ((model ms).content.getD "") (model ms).tool_calls ::
        (model ms).tool_calls.map (toolMsgFor ct))
      simp only [runTurn, h, Bool.false_eq_true, if_false]
      omega

theorem runTurn_allTools (model : List Msg → ModelResp) (ct : String → Json → ToolResult)
    (hall : ∀ t, (model t).tool_calls.isEmpty = false) :
    ∀ fuel ms, (runTurn model ct fuel ms).printed = none ∧
      (runTurn model ct fuel ms).calls = fuel := by
  intro fuel
  induction fuel with
  | zero => intro ms; simp [runTurn]
  | succ n ih =>
    intro ms
    have h2 := ih (ms ++ Msg.assistant ((model ms).content.getD "") (model ms).tool_calls ::
      (model ms).tool_calls.map (toolMsgFor ct))
    simp only [runTurn, hall ms, Bool.false_eq_true, if_false]
    exact ⟨h2.1, by rw [h2.2]⟩

/-- C2 (confirmed): each user turn makes at most 5 chat-completion calls;
when the model still requests tools at the cap, the turn ends with no final
answer printed (`printed = none`) — the pending tool intent is dropped and
control returns to the input loop, with no error raised (the loop is a
total function). -/
theorem turn_model_call_cap (model : List Msg → ModelResp)
    (ct : String → Json → ToolResult) (ms : List Msg) :
    (runTurn model ct 5 ms).calls ≤ 5 ∧
    ((∀ t, (model t).tool_calls.isEmpty = false) →
      (runTurn model ct 5 ms).printed = none ∧ (runTurn model ct 5 ms).calls = 5) :=
  ⟨runTurn_calls_le model ct 5 ms, fun hall => runTurn_allTools model ct hall 5 ms⟩

theorem turn_model_call_cap_witness :
    (runTurn loopingModel okTool 5 initialMessages).calls ≤ 5 ∧
    ((runTurn loopingModel okTool 5 initialMessages).printed = none ∧
      (runTurn loopingModel okTool 5 initialMessages).calls = 5) :=
  ⟨(turn_model_call_cap loopingModel okTool initialMessages).1,
   (turn_model_call_cap loopingModel okTool initialMessages).2 (fun _ => rfl)⟩

/-- C1 (confirmed): whatever the model and the tool peer do, the messages a
user turn appends to the transcript form well-formed rounds: each round is
the assistant message carrying the model's tool calls followed by exactly
one `tool` message per call, in the model's order, each carrying that
call's correlation id and name. -/
theorem turn_tool_message_integrity (model : List Msg → ModelResp)
    (ct : String → Json → ToolResult) :
    ∀ fuel ms, ∃ suffix,
      (runTurn model ct fuel ms).transcript = ms ++ suffix ∧ RoundsWF suffix := by
  intro fuel
  induction fuel with
  | zero => intro ms; exact ⟨[], by simp [runTurn], RoundsWF.nil⟩
  | succ n ih =>
    intro ms
    by_cases h : (model ms).tool_calls.isEmpty = true
    · exact ⟨[], by simp [runTurn, h], RoundsWF.nil⟩
    · rw [Bool.not_eq_true] at h
      obtain ⟨suf, heq, hwf⟩ := ih (ms ++ Msg.assistant ((model ms).content.getD "")
        (model ms).tool_calls :: (model ms).tool_calls.map (toolMsgFor ct))
      refine ⟨Msg.assistant ((model ms).content.getD "") (model ms).tool_calls ::
        ((model ms).tool_calls.map (toolMsgFor ct) ++ suf), ?_, ?_⟩
      · simp only [runTurn, h, Bool.false_eq_true, if_false]
        rw [heq]
        simp
      · exact RoundsWF.round _ _
          (fun tc => _flatten_tool_result (ct tc.name (parseToolArgs tc.arguments))) suf
          (by simpa [List.isEmpty_iff] using h) hwf

/-- C5 (confirmed): a failed tool invocation (an error-flagged MCP result)
is surfaced as the corresponding `tool` message's content — the error text
flattened exactly like any result — and the round continues to the next
chat-completion call; the session itself is a total function whose only
failing outcome is the `DiscoveryError` raised before the loop starts. -/
theorem tool_failure_absorbed (model : List Msg → ModelResp)
    (ct : String → Json → ToolResult) (fuel : Nat) (ms : List Msg)
    (hcalls : (model ms).tool_calls.isEmpty = false)
    (_herr : ∀ tc ∈ (model ms).tool_calls,
      (ct tc.name (parseToolArgs tc.arguments)).isError = true) :
    (∀ tc ∈ (model ms).tool_calls,
      toolMsgFor ct tc =
        Msg.tool tc.id tc.name (_flatten_tool_result (ct tc.name (parseToolArgs tc.arguments)))) ∧
    runTurn model ct (fuel + 1) ms =
      ⟨(runTurn model ct fuel (ms ++ Msg.assistant ((model ms).content.getD "")
          (model ms).tool_calls :: (model ms).tool_calls.map (toolMsgFor ct))).transcript,
       (runTurn model ct fuel (ms ++ Msg.assistant ((model ms).content.getD "")
          (model ms).tool_calls :: (model ms).tool_calls.map (toolMsgFor ct))).printed,
       (runTurn model ct fuel (ms ++ Msg.assistant ((model ms).content.getD "")
          (model ms).tool_calls :: (model ms).tool_calls.map (toolMsgFor ct))).calls + 1⟩ ∧
    (∀ d inputs e, run_client d model ct inputs = .error e → d = .error e) := by
  refine ⟨fun tc _ => rfl, ?_, fun d inputs e hrc => ?_⟩
  · simp only [runTurn, hcalls, Bool.false_eq_true, if_false]
  · cases d with
    | error e2 => cases hrc; rfl
    | ok tools => cases hrc

theorem tool_failure_absorbed_witness :
    toolMsgFor errTool ⟨"id1", "X", String.mk [lbrace, rbrace]⟩ =
      Msg.tool "id1" "X" "Error: boom" :=
  (tool_failure_absorbed loopingModel errTool 0 initialMessages rfl
    (fun _ _ => rfl)).1 ⟨"id1", "X", String.mk [lbrace, rbrace]⟩ (by simp [loopingModel])

/-- C6 (confirmed): with a model that first requests tool `X` with
arguments `\x7b"a": 1\x7d` and then answers `done` with no tool calls, the
turn makes two chat-completion calls, ends with the transcript holding
exactly one `tool` message for `X` right after the assistant message
carrying the request, and prints the assistant's stripped text `done`
(which is not itself appended to the transcript). -/
theorem scripted_turn_result :
    runTurn scriptedModel okTool 5 (initialMessages ++ [Msg.user "hi"]) =
      ⟨initialMessages ++ [Msg.user "hi",
        Msg.assistant "" [⟨"call_1", "X", "\x7b\"a\": 1\x7d"⟩],
        Msg.tool "call_1" "X" "ok"],
       some "done", 2⟩ := by
  rfl

/-- C8 (confirmed): a stripped input line equal to `quit` or `exit` in any
casing ends the session at once — no user message is appended, no model
call or tool dispatch happens, the remaining input is ignored — and the
process exits normally (code 0); with no positional argument the program
prints the usage line and exits with code 1. -/
theorem cli_quit_and_usage :
    (∀ model ct line rest ms,
      (pyLower (pyStrip line) = "quit" ∨ pyLower (pyStrip line) = "exit") →
      runSession model ct (line :: rest) ms = (ms, [])) ∧
    (∀ argv d model ct inputs, argv.length < 2 →
      mainEntry argv d model ct inputs = ⟨1, some usageMsg⟩) ∧
    (∀ argv tools model ct inputs, 2 ≤ argv.length →
      mainEntry argv (Except.ok tools) model ct inputs = ⟨0, none⟩) := by
  refine ⟨fun model ct line rest ms h => ?_, fun argv d model ct inputs h => ?_,
    fun argv tools model ct inputs h => ?_⟩
  · rcases h with h | h <;> simp [runSession, h]
  · simp [mainEntry, h]
  · simp [mainEntry, Nat.not_lt.mpr h, run_client]

theorem cli_quit_and_usage_witness :
    runSession loopingModel okTool [" QUIT ", "hello"] initialMessages =
      (initialMessages, []) ∧
    mainEntry ["gcal_mcp_client.py"] (Except.ok []) loopingModel okTool [] =
      ⟨1, some usageMsg⟩ ∧
    mainEntry ["gcal_mcp_client.py", "gcal_mcp_server.py"] (Except.ok [])
      loopingModel okTool [] = ⟨0, none⟩ :=
  ⟨cli_quit_and_usage.1 loopingModel okTool " QUIT " ["hello"] initialMessages (Or.inl rfl),
   cli_quit_and_usage.2.1 _ _ _ _ _ (by simp),
   cli_quit_and_usage.2.2 _ _ _ _ _ (by simp)⟩
